import Mathlib

/-!
Shallow embedding of the SEO-MAX crawl-and-score engine
(`src/unnamed/part_002`, classes `SEOChecker` and `SitewideAnalyzer`).

Browser builtins (`fetch`, `DOMParser`, `new URL`) are external to the
repository; they are modelled as explicit parameters (an oracle for fetched
content, a `parseUrl`/`resolve` pair for the WHATWG URL constructor) and a
structured `Url` value type.  Everything else is translated directly from the
JavaScript source.
-/

namespace SEOMax

/-- `Math.round q` in JavaScript: `⌊q + 1/2⌋` (ties go toward `+∞`). -/
def jsRound (q : ℚ) : ℤ := ⌊q + 1 / 2⌋

/-- Evaluation rule for `jsRound`: `n ≤ q + 1/2 < n + 1` pins the floor. -/
theorem jsRound_eq (q : ℚ) (n : ℤ) (h1 : (n : ℚ) ≤ q + 1 / 2)
    (h2 : q + 1 / 2 < n + 1) : jsRound q = n := by
  unfold jsRound
  rw [Int.floor_eq_iff]
  · exact ⟨h1, by exact_mod_cast h2⟩

/-- `needle` occurs as a contiguous substring of `hay`
(model of JavaScript `String.prototype.includes`). -/
def strContains (hay needle : String) : Bool :=
  decide (needle.data <:+: hay.data)

/-- `String.prototype.toLowerCase` restricted to ASCII input. -/
def jsToLower (s : String) : String := String.mk (s.data.map Char.toLower)

/-- `String.prototype.trim` (ASCII whitespace). -/
def jsTrim (s : String) : String :=
  String.mk ((s.data.dropWhile Char.isWhitespace).reverse.dropWhile
      Char.isWhitespace).reverse

/-- `String.prototype.startsWith`. -/
def jsStartsWith (s pre : String) : Bool := pre.data.isPrefixOf s.data

/-- `String.prototype.endsWith`. -/
def jsEndsWith (s suf : String) : Bool := suf.data.isSuffixOf s.data

/-- `String.prototype.split` with a single-character separator. -/
def splitOnChar (c : Char) : List Char → List (List Char)
  | [] => [[]]
  | x :: xs =>
      match splitOnChar c xs, x == c with
      | r, true => [] :: r
      | [], false => [[x]]
      | h :: t, false => (x :: h) :: t

/-- Structured model of a parsed WHATWG URL object (`new URL(...)`):
scheme (`protocol`, e.g. `"https:"`), `hostname`, `pathname`,
`searchParams` as an ordered key/value list, and `hash`
(either `""` or `"#..."`). -/
structure Url where
  protocol : String
  hostname : String
  pathname : String
  searchParams : List (String × String)
  hash : String
  deriving Repr, DecidableEq

/-- Serialization `urlObj.href` of the model. -/
def Url.href (u : Url) : String :=
  u.protocol ++ "//" ++ u.hostname ++ u.pathname ++
    (if u.searchParams.isEmpty then ""
     else "?" ++ String.intercalate "&"
            (u.searchParams.map (fun kv => kv.1 ++ "=" ++ kv.2))) ++
    u.hash

/-- `SitewideAnalyzer.cleanUrl` (part_002 lines 1712-1724): drop the fragment,
delete the five tracking parameters, re-serialize; on a parse failure return
the input unchanged.  `parseUrl` models the `new URL(url)` builtin. -/
def cleanUrl (parseUrl : String → Option Url) (url : String) : String :=
  match parseUrl url with
  | none => url
  | some u =>
      let paramsToRemove := ["utm_source", "utm_medium", "utm_campaign",
                             "fbclid", "gclid"]
      let u := { u with hash := "" }
      let u := { u with
        searchParams := paramsToRemove.foldl
          (fun ps name => ps.filter (fun kv => kv.1 ≠ name)) u.searchParams }
      u.href

/-- `SitewideAnalyzer.resolveUrl` is `new URL(href, base).href` with a
`null` on failure: kept abstract as a parameter `resolve` below. -/
abbrev Resolver := String → String → Option String

/-- `SitewideAnalyzer.isInternalUrl` (part_002 lines 1696-1710). -/
def isInternalUrl (parseUrl : String → Option Url)
    (url baseUrl : String) (includeSubdomains : Bool) : Bool :=
  match parseUrl url, parseUrl baseUrl with
  | some urlObj, some baseObj =>
      if includeSubdomains then
        jsEndsWith urlObj.hostname baseObj.hostname ||
          jsEndsWith baseObj.hostname urlObj.hostname
      else
        urlObj.hostname == baseObj.hostname
  | _, _ => false

/-! ### Heading cleaning (`SEOChecker.cleanHeadingText`, lines 165-176)

`cleaned.replace(/^Links\b\s*/i, '')` and
`cleaned.replace(/\s*\bRechtsaf\b$/i, '')` are modelled on character lists:
a JavaScript word character (`\w`) is `[A-Za-z0-9_]`, and `\b` demands a
word/non-word transition. -/

/-- JavaScript regex word character `\w`. -/
def isWordChar (c : Char) : Bool :=
  ('A' ≤ c && c ≤ 'Z') || ('a' ≤ c && c ≤ 'z') || ('0' ≤ c && c ≤ '9') ||
    c == '_'

/-- `replace(/^Links\b\s*/i, '')` on a character list: if the list starts
with `Links` (case-insensitive) followed by a word boundary, remove that
token and the whitespace after it. -/
def stripLeadingLinks (l : List Char) : List Char :=
  match l with
  | a :: b :: c :: d :: e :: rest =>
      if ([a, b, c, d, e].map Char.toLower == "links".data) &&
         (match rest with
          | [] => true
          | x :: _ => !isWordChar x) then
        rest.dropWhile Char.isWhitespace
      else l
  | _ => l

/-- `replace(/\s*\bRechtsaf\b$/i, '')` on a character list: if the list ends
with `Rechtsaf` (case-insensitive) preceded by a word boundary, remove that
token and the whitespace before it. -/
def stripTrailingRechtsaf (l : List Char) : List Char :=
  match l.reverse with
  | f :: a :: s :: t :: h :: c :: e :: r :: rest =>
      if ([f, a, s, t, h, c, e, r].map Char.toLower == "fasthcer".data) &&
         (match rest with
          | [] => true
          | x :: _ => !isWordChar x) then
        (rest.dropWhile Char.isWhitespace).reverse
      else l
  | _ => l

/-- `SEOChecker.cleanHeadingText` (part_002 lines 165-176). -/
def cleanHeadingText (text : String) : String :=
  if text == "" then text
  else
    let cleaned := jsTrim text
    let cleaned := String.mk (stripLeadingLinks cleaned.data)
    let cleaned := String.mk (stripTrailingRechtsaf cleaned.data)
    let cleaned := jsTrim cleaned
    if cleaned == "" then jsTrim text else cleaned

example : cleanHeadingText "Links Over ons" = "Over ons" := by decide
example : cleanHeadingText "Klik hier Rechtsaf" = "Klik hier" := by decide
example : cleanHeadingText "Ga linksaf bij het kruispunt" =
    "Ga linksaf bij het kruispunt" := by decide
example : cleanHeadingText "Links" = "Links" := by decide
example : cleanHeadingText "Links Rechtsaf" = "Links Rechtsaf" := by decide

/-! ### Document model and fact extraction (`SEOChecker`, lines 140-311)

A parsed document (`DOMParser` output) is modelled by the attributes the
extractor reads from it. -/

/-- An `<img>` element: its `alt` and `src` attributes (`none` = absent)
and the DOM property `img.src` (browser-resolved absolute URL, `""` when
unresolved). -/
structure Img where
  alt : Option String
  src : Option String
  srcResolved : String
  deriving Repr, DecidableEq

/-- The slices of a parsed document that the extractor queries. -/
structure Doc where
  title : Option String
  h1Texts : List String
  metaDescription : Option String
  metaRobots : Option String
  images : List Img
  canonicalHref : Option String
  anchorHrefs : List String
  deriving Repr, DecidableEq

/-- `SEOChecker.checkStatus` (lines 140-150). -/
structure StatusResult where
  statusCode : Nat
  isSuccess : Bool
  noindex : Bool
  nofollow : Bool
  deriving Repr, DecidableEq

def checkStatus (status : Nat) (xRobotsTag : Option String) : StatusResult :=
  { statusCode := status
    isSuccess := decide (200 ≤ status) && decide (status < 300)
    noindex := match xRobotsTag with
               | some v => strContains v "noindex"
               | none => false
    nofollow := match xRobotsTag with
                | some v => strContains v "nofollow"
                | none => false }

/-- `SEOChecker.analyzeTitle` result (lines 152-163). -/
structure TitleResult where
  exists_ : Bool
  content : String
  length : Nat
  isOptimal : Bool
  hasKeyword : Option Bool
  deriving Repr, DecidableEq

/-- `thisKeyword` is `this.keyword`, already lowercased by `analyzeWebsite`
(line 10); `hasKeyword` is `null` when no keyword was supplied. -/
def analyzeTitle (titleEl : Option String) (thisKeyword : String) :
    TitleResult :=
  let title := match titleEl with
               | some t => jsTrim t
               | none => ""
  { exists_ := titleEl.isSome
    content := title
    length := title.length
    isOptimal := decide (30 ≤ title.length) && decide (title.length ≤ 60)
    hasKeyword := if thisKeyword ≠ "" then
                    some (strContains (jsToLower title) thisKeyword)
                  else none }

/-- `SEOChecker.analyzeH1` result (lines 178-198). -/
structure H1Result where
  count : Nat
  texts : List String
  isOptimal : Bool
  keywordPresent : Bool
  isEmpty : Bool
  h1List : List String
  deriving Repr, DecidableEq

/-- `SEOChecker.analyzeH1` (lines 178-198); `keyword` is the function's own
parameter (`none` models the `undefined` it receives from the call at
line 37). -/
def analyzeH1 (h1Elements : List String) (keyword : Option String) :
    H1Result :=
  let h1Texts := h1Elements.map (fun t => cleanHeadingText (jsTrim t))
  let keywordInH1 := match keyword with
    | some k =>
        if k ≠ "" then
          h1Texts.any (fun t => strContains (jsToLower t) (jsToLower k))
        else false
    | none => false
  { count := h1Elements.length
    texts := h1Texts
    isOptimal := h1Elements.length == 1
    keywordPresent := keywordInH1
    isEmpty := h1Texts.any (fun t => t.length == 0)
    h1List := h1Texts }

/-- `SEOChecker.analyzeMeta` result (lines 200-214). -/
structure MetaResult where
  exists_ : Bool
  content : String
  length : Nat
  isOptimal : Bool
  noindex : Bool
  nofollow : Bool
  deriving Repr, DecidableEq

def analyzeMeta (metaDescription metaRobots : Option String) : MetaResult :=
  let description := match metaDescription with
                     | some c => jsTrim c
                     | none => ""
  { exists_ := metaDescription.isSome
    content := description
    length := description.length
    isOptimal := decide (120 ≤ description.length) &&
                 decide (description.length ≤ 160)
    noindex := match metaRobots with
               | some c => strContains c "noindex"
               | none => false
    nofollow := match metaRobots with
                | some c => strContains c "nofollow"
                | none => false }

/-- Entry of `missingAltImages` (lines 222-234). -/
structure MissingAlt where
  filename : String
  src : String
  fullUrl : String
  deriving Repr, DecidableEq

/-- `SEOChecker.analyzeImages` result (lines 216-243). -/
structure ImagesResult where
  total : Nat
  withAlt : Nat
  withoutAlt : Nat
  percentage : ℤ
  missingAltImages : List MissingAlt
  deriving Repr, DecidableEq

/-- JavaScript truthiness of `img.getAttribute('alt')`. -/
def imgHasAlt (img : Img) : Bool :=
  match img.alt with
  | some a => a ≠ ""
  | none => false

def analyzeImages (images : List Img) : ImagesResult :=
  let imagesWithAlt := images.filter imgHasAlt
  let imagesWithoutAlt := images.filter (fun i => !imgHasAlt i)
  let missingAltImages := (imagesWithoutAlt.map (fun img =>
      let src := jsTrim (img.src.getD "")
      let popped := String.mk ((splitOnChar '/' src.data).getLastD [])
      let filename := if popped ≠ "" then popped else src
      let fullUrl := if img.srcResolved ≠ "" then img.srcResolved else src
      MissingAlt.mk filename src fullUrl)).filter
    (fun m => m.src ≠ "" && m.filename ≠ "")
  { total := images.length
    withAlt := imagesWithAlt.length
    withoutAlt := imagesWithoutAlt.length
    percentage := if images.length > 0 then
                    jsRound ((imagesWithAlt.length : ℚ) / images.length * 100)
                  else 100
    missingAltImages := missingAltImages }

/-- `SEOChecker.analyzeCanonical` result (lines 245-255). -/
structure CanonicalResult where
  exists_ : Bool
  url : Option String
  isSelfReferencing : Bool
  isValid : Bool
  deriving Repr, DecidableEq

def analyzeCanonical (parseUrl : String → Option Url)
    (canonicalHref : Option String) (currentUrl : String) : CanonicalResult :=
  { exists_ := canonicalHref.isSome
    url := canonicalHref
    isSelfReferencing := canonicalHref == some currentUrl
    isValid := match canonicalHref with
               | some c => (parseUrl c).isSome
               | none => false }

/-- `SEOChecker.analyzeLinks` result (lines 259-265). -/
structure LinkData where
  total : Nat
  internal : Nat
  external : Nat
  broken : Nat
  checked : Nat
  deriving Repr, DecidableEq

/-- A link the loop at line 269 skips with `continue`: empty href,
fragment-only, `mailto:` or `tel:`. -/
def isSkippedHref (href : String) : Bool :=
  href == "" || jsStartsWith href "#" || jsStartsWith href "mailto:" ||
    jsStartsWith href "tel:"

/-- Loop body of `analyzeLinks` (lines 267-285): resolve the href against
the page URL and classify; any constructor throw counts as broken. -/
def linkStep (parseUrl : String → Option Url) (resolve : Resolver)
    (baseUrl : String) (d : LinkData) (href : String) : LinkData :=
  if isSkippedHref href then d
  else
    match resolve href baseUrl with
    | none => { d with broken := d.broken + 1 }
    | some fullUrl =>
        match parseUrl fullUrl, parseUrl baseUrl with
        | some fu, some bu =>
            let d := if fu.hostname == bu.hostname then
                       { d with internal := d.internal + 1 }
                     else
                       { d with external := d.external + 1 }
            { d with checked := d.checked + 1 }
        | _, _ => { d with broken := d.broken + 1 }

/-- `SEOChecker.analyzeLinks` (lines 257-288): note the source iterates
`Array.from(links).slice(0, 20)` — the first 20 anchors, sliced *before*
the skip test. -/
def analyzeLinks (parseUrl : String → Option Url) (resolve : Resolver)
    (anchorHrefs : List String) (baseUrl : String) : LinkData :=
  (anchorHrefs.take 20).foldl (linkStep parseUrl resolve baseUrl)
    { total := anchorHrefs.length, internal := 0, external := 0,
      broken := 0, checked := 0 }

/-- `SEOChecker.analyzeURL` result (lines 290-302). -/
structure URLResult where
  length : Nat
  isShort : Bool
  hasParameters : Bool
  depth : Nat
  isReadable : Bool
  protocol : String
  deriving Repr, DecidableEq

/-- Characters allowed by `!/[^a-zA-Z0-9\-\/\.]/.test(path)`. -/
def isReadableChar (c : Char) : Bool :=
  ('a' ≤ c && c ≤ 'z') || ('A' ≤ c && c ≤ 'Z') || ('0' ≤ c && c ≤ '9') ||
    c == '-' || c == '/' || c == '.'

/-- `SEOChecker.analyzeURL` (lines 290-302); `new URL(url)` throws on a
malformed URL, hence the `Option`. -/
def analyzeURL (parseUrl : String → Option Url) (url : String) :
    Option URLResult :=
  match parseUrl url with
  | none => none
  | some urlObj =>
      let path := urlObj.pathname
      some
        { length := url.length
          isShort := decide (url.length ≤ 100)
          hasParameters := !urlObj.searchParams.isEmpty
          depth := ((splitOnChar '/' path.data).filter
            (fun seg => seg ≠ [])).length
          isReadable := path.data.all isReadableChar
          protocol := urlObj.protocol }

/-- `this.results` as assembled at lines 32-43. -/
structure Results where
  url : String
  keyword : String
  status : StatusResult
  title : TitleResult
  h1 : H1Result
  meta : MetaResult
  images : ImagesResult
  canonical : CanonicalResult
  links : LinkData
  urlStructure : URLResult
  deriving Repr, DecidableEq

/-- A successful retrieval, as seen by `analyzeWebsite`: HTTP status,
`x-robots-tag` header and the parsed document. -/
structure Fetched where
  status : Nat
  xRobotsTag : Option String
  doc : Doc
  deriving Repr, DecidableEq

/-- Lines 32-43 of `analyzeWebsite`: assemble `this.results` from one
fetched response.  `none` models the throw of `new URL(url)` inside
`analyzeURL`, which the surrounding `try` turns into an error.
Note line 37: `h1: this.analyzeH1(doc)` passes **no** keyword argument. -/
def analyzeWebsiteCore (parseUrl : String → Option Url) (resolve : Resolver)
    (url keyword : String) (f : Fetched) : Option Results :=
  let thisKeyword := jsToLower keyword
  match analyzeURL parseUrl url with
  | none => none
  | some urlStructure =>
      some
        { url := url
          keyword := keyword
          status := checkStatus f.status f.xRobotsTag
          title := analyzeTitle f.doc.title thisKeyword
          h1 := analyzeH1 f.doc.h1Texts none
          meta := analyzeMeta f.doc.metaDescription f.doc.metaRobots
          images := analyzeImages f.doc.images
          canonical := analyzeCanonical parseUrl f.doc.canonicalHref url
          links := analyzeLinks parseUrl resolve f.doc.anchorHrefs url
          urlStructure := urlStructure }

/-! ### Scorer (`SEOChecker.calculateScore`, lines 313-342) -/

/-- The `maxScore` accumulated at lines 318-339. -/
def scorerMaxScore : Nat := 15 + 15 + 10 + 15 + 10 + 10 + 10 + 15

/-- `SEOChecker.calculateScore` (lines 313-342):
`Math.round((score / maxScore) * 100)`. -/
def calculateScore (r : Results) : ℤ :=
  let score : ℕ :=
    (if r.status.isSuccess then 15 else 0) +
    (if r.title.exists_ && r.title.isOptimal then 15 else 0) +
    (if r.h1.isOptimal then 10 else 0) +
    (if r.meta.exists_ && r.meta.isOptimal then 15 else 0) +
    (if decide ((80 : ℤ) ≤ r.images.percentage) then 10 else 0) +
    (if r.canonical.exists_ then 10 else 0) +
    (if r.links.broken == 0 then 10 else 0) +
    (if r.urlStructure.isShort && r.urlStructure.isReadable then 15 else 0)
  jsRound ((score : ℚ) / (scorerMaxScore : ℚ) * 100)

/-! ### Result cache (lines 5-6, 9-24, 45-49, 57-65) -/

/-- `this.cacheExpiry = 5 * 60 * 1000` (milliseconds). -/
def cacheExpiry : Nat := 5 * 60 * 1000

structure CacheEntry where
  results : Results
  timestamp : Nat
  deriving Repr, DecidableEq

/-- `this.cache`, a `Map` keyed by `` `${url}-${keyword}` ``, modelled by
its key → entry mapping (iteration order is only used by `cleanCache`,
whose effect is order-independent). -/
abbrev Cache := String → Option CacheEntry

/-- `this.cache.get(cacheKey)` (line 19). -/
def cacheGetEntry (c : Cache) (key : String) : Option CacheEntry := c key

/-- `this.cache.set(cacheKey, {results, timestamp})` (lines 46-49). -/
def cacheSet (c : Cache) (key : String) (e : CacheEntry) : Cache :=
  fun k => if k == key then some e else c k

/-- `SEOChecker.cleanCache` (lines 58-65): delete every entry with
`now - value.timestamp > this.cacheExpiry`. -/
def cleanCache (now : Nat) (c : Cache) : Cache :=
  fun k =>
    match c k with
    | some e => if now - e.timestamp > cacheExpiry then none else some e
    | none => none

/-- Fetch-and-analyze path of `analyzeWebsite` (lines 26-54): fetch
(`oracle`, `none` = all backends failed), analyze, cache the results. -/
def analyzeWebsiteFetch (parseUrl : String → Option Url) (resolve : Resolver)
    (cache : Cache) (now : Nat) (url keyword : String)
    (oracle : Option Fetched) : Except String (Results × Bool) × Cache :=
  match oracle with
  | none => (Except.error "Fout bij analyseren: fetch mislukt", cache)
  | some f =>
      match analyzeWebsiteCore parseUrl resolve url keyword f with
      | none => (Except.error "Fout bij analyseren: ongeldige URL", cache)
      | some results =>
          (Except.ok (results, true),
           cacheSet cache (url ++ "-" ++ keyword) ⟨results, now⟩)

/-- `SEOChecker.analyzeWebsite` (lines 9-55).  `doClean` models the 10%
`Math.random()` draw at line 13; the returned `Bool` records whether a
fresh retrieval happened (`false` = served from cache). -/
def analyzeWebsite (parseUrl : String → Option Url) (resolve : Resolver)
    (cache : Cache) (now : Nat) (url keyword : String) (doClean : Bool)
    (oracle : Option Fetched) : Except String (Results × Bool) × Cache :=
  let cache := if doClean then cleanCache now cache else cache
  let cacheKey := url ++ "-" ++ keyword
  match cacheGetEntry cache cacheKey with
  | some cached =>
      if now - cached.timestamp < cacheExpiry then
        (Except.ok (cached.results, false), cache)
      else analyzeWebsiteFetch parseUrl resolve cache now url keyword oracle
  | none => analyzeWebsiteFetch parseUrl resolve cache now url keyword oracle

/-! ### Frontier crawler (`SitewideAnalyzer.discoverInternalPages`,
lines 1498-1538)

State: `foundUrls` (a `Set`, modelled as its insertion-order list),
`crawledUrls`, and the FIFO `urlsToCheck`.  `fetchLinks` models
fetch + `DOMParser` + `querySelectorAll('a[href]')` for one page
(`none` = the fetch threw; the `catch` at line 1532 swallows it). -/

/-- Body of the `for (const link of links)` loop (lines 1516-1531), acting
on the pair `(foundUrls, urlsToCheck)`. -/
def crawlStep (parseUrl : String → Option Url) (resolve : Resolver)
    (baseUrl currentUrl : String) (includeSubdomains : Bool) (maxPages : Nat)
    (fq : List String × List String) (href : String) :
    List String × List String :=
  if href == "" then fq
  else
    match resolve href currentUrl with
    | none => fq
    | some absoluteUrl =>
        if isInternalUrl parseUrl absoluteUrl baseUrl includeSubdomains then
          let cu := cleanUrl parseUrl absoluteUrl
          if cu ≠ "" && !fq.1.contains cu &&
              decide (fq.1.length < maxPages) then
            (fq.1 ++ [cu], fq.2 ++ [cu])
          else fq
        else fq

/-- All link processing for one crawled page. -/
def processLinks (parseUrl : String → Option Url) (resolve : Resolver)
    (baseUrl currentUrl : String) (includeSubdomains : Bool) (maxPages : Nat)
    (links : List String) (fq : List String × List String) :
    List String × List String :=
  links.foldl (crawlStep parseUrl resolve baseUrl currentUrl
    includeSubdomains maxPages) fq

/-- Each loop step leaves the crawl measure
`2*(maxPages - |found|) + |queue|` non-increasing: an enqueue pairs with a
new `found` entry, which is only admitted while `|found| < maxPages`. -/
theorem crawlStep_measure (parseUrl : String → Option Url) (resolve : Resolver)
    (baseUrl currentUrl : String) (inc : Bool) (maxPages : Nat)
    (fq : List String × List String) (href : String) :
    2 * (maxPages - (crawlStep parseUrl resolve baseUrl currentUrl inc
        maxPages fq href).1.length) +
      (crawlStep parseUrl resolve baseUrl currentUrl inc maxPages
        fq href).2.length ≤
    2 * (maxPages - fq.1.length) + fq.2.length := by
  unfold crawlStep
  dsimp only
  repeat' split
  all_goals
    first
      | exact le_refl _
      | (rename_i hcond
         simp only [Bool.and_eq_true, decide_eq_true_eq] at hcond
         simp only [List.length_append, List.length_cons, List.length_nil]
         omega)

theorem processLinks_measure (parseUrl : String → Option Url)
    (resolve : Resolver) (baseUrl currentUrl : String) (inc : Bool)
    (maxPages : Nat) (links : List String) (fq : List String × List String) :
    2 * (maxPages - (processLinks parseUrl resolve baseUrl currentUrl inc
        maxPages links fq).1.length) +
      (processLinks parseUrl resolve baseUrl currentUrl inc maxPages
        links fq).2.length ≤
    2 * (maxPages - fq.1.length) + fq.2.length := by
  induction links generalizing fq with
  | nil => exact le_refl _
  | cons h t ih =>
      exact le_trans (ih _) (crawlStep_measure parseUrl resolve baseUrl
        currentUrl inc maxPages fq h)

/-- The `while (urlsToCheck.length > 0 && foundUrls.size < maxPages)` loop
(lines 1503-1535). -/
def crawlLoop (fetchLinks : String → Option (List String))
    (parseUrl : String → Option Url) (resolve : Resolver) (baseUrl : String)
    (includeSubdomains : Bool) (maxPages : Nat)
    (found crawled queue : List String) : List String :=
  match queue with
  | [] => found
  | currentUrl :: rest =>
      if _h : found.length < maxPages then
        if crawled.contains currentUrl then
          crawlLoop fetchLinks parseUrl resolve baseUrl includeSubdomains
            maxPages found crawled rest
        else
          match fetchLinks currentUrl with
          | none =>
              crawlLoop fetchLinks parseUrl resolve baseUrl includeSubdomains
                maxPages found (currentUrl :: crawled) rest
          | some links =>
              let fq := processLinks parseUrl resolve baseUrl currentUrl
                includeSubdomains maxPages links (found, rest)
              crawlLoop fetchLinks parseUrl resolve baseUrl includeSubdomains
                maxPages fq.1 (currentUrl :: crawled) fq.2
      else found
termination_by 2 * (maxPages - found.length) + queue.length
decreasing_by
  · simp only [List.length_cons]; omega
  · simp only [List.length_cons]; omega
  · have hm := processLinks_measure parseUrl resolve baseUrl currentUrl
      includeSubdomains maxPages links (found, rest)
    dsimp only at hm ⊢
    simp only [List.length_cons]
    omega

/-- `SitewideAnalyzer.discoverInternalPages` (lines 1498-1538):
seed `foundUrls = {baseUrl}`, crawl, then
`Array.from(foundUrls).slice(0, maxPages)`. -/
def discoverInternalPages (fetchLinks : String → Option (List String))
    (parseUrl : String → Option Url) (resolve : Resolver) (baseUrl : String)
    (maxPages : Nat) (includeSubdomains : Bool) : List String :=
  (crawlLoop fetchLinks parseUrl resolve baseUrl includeSubdomains maxPages
    [baseUrl] [] [baseUrl]).take maxPages

/-! ### Sitewide aggregation (`SitewideAnalyzer`, lines 1436-1685) -/

/-- A per-page issue (`extractPageIssues` entries, lines 1576-1604). -/
structure Issue where
  type : String
  message : String
  deriving Repr, DecidableEq

/-- `SitewideAnalyzer.extractPageIssues` (lines 1576-1604). -/
def extractPageIssues (r : Results) : List Issue :=
  (if !r.title.exists_ then [⟨"error", "Title tag ontbreekt"⟩]
   else if !r.title.isOptimal then [⟨"warning", "Title lengte niet optimaal"⟩]
   else []) ++
  (if !r.h1.isOptimal then
     [⟨if r.h1.count == 0 then "error" else "warning",
       if r.h1.count == 0 then "H1 tag ontbreekt" else "Meerdere H1 tags"⟩]
   else []) ++
  (if !r.meta.exists_ then [⟨"warning", "Meta description ontbreekt"⟩]
   else []) ++
  (if r.images.withoutAlt > 0 then
     [⟨"warning",
       toString r.images.withoutAlt ++ " afbeeldingen zonder alt-text"⟩]
   else [])

/-- An entry of `this.analyzedPages`: either a success (lines 1562-1573,
`error` absent) or the degraded entry of lines 1469-1474
(`{url, error, score: 0}`; its `issues` field is absent, modelled `[]`
 — the fold at line 1628 uses `page.issues?.` and skips it either way).
The thrown messages are non-empty (`analyzeWebsite` prefixes
`"Fout bij analyseren: "`), so `!p.error` is modelled by `p.error = none`. -/
structure PageAnalysis where
  url : String
  error : Option String
  score : ℤ
  issues : List Issue
  deriving Repr, DecidableEq

/-- The `for (const url of internalUrls)` loop of `analyzeSitewide`
(lines 1456-1477): `analyze` models `analyzePageSEO` (retrieve + extract +
score + issue derivation), `Except.error` its throw.  Every URL yields
exactly one entry; a failure is recorded and the loop continues. -/
def analyzePages (analyze : String → Except String (ℤ × List Issue))
    (urls : List String) : List PageAnalysis :=
  urls.map (fun url =>
    match analyze url with
    | Except.ok (score, issues) => ⟨url, none, score, issues⟩
    | Except.error msg => ⟨url, some msg, 0, []⟩)

/-- An aggregated sitewide issue (lines 1634-1639). -/
structure AggIssue where
  type : String
  message : String
  count : Nat
  pages : List String
  deriving Repr, DecidableEq

/-- Lines 1629-1640: find the first aggregated issue with the same message
and bump it, else push a fresh entry. -/
def addIssue : List AggIssue → Issue → String → List AggIssue
  | [], iss, url => [⟨iss.type, iss.message, 1, [url]⟩]
  | e :: rest, iss, url =>
      if e.message == iss.message then
        { e with count := e.count + 1, pages := e.pages ++ [url] } :: rest
      else e :: addIssue rest iss url

/-- The issue fold of `calculateSitewideStats` (lines 1626-1642). -/
def foldIssues (pages : List PageAnalysis) : List AggIssue :=
  pages.foldl
    (fun acc page =>
      page.issues.foldl (fun a i => addIssue a i page.url) acc) []

/-- `typeWeight[type] || 1` (line 1646). -/
def issueTypeWeight (t : String) : Nat :=
  if t == "error" then 3 else if t == "warning" then 2 else 1

def aggWeight (e : AggIssue) : Nat := issueTypeWeight e.type * e.count

/-- Stable descending sort by `aggWeight` (the comparator at
lines 1645-1650; V8's `Array.prototype.sort` is stable). -/
def insertIssueSorted (x : AggIssue) : List AggIssue → List AggIssue
  | [] => [x]
  | h :: t =>
      if aggWeight x < aggWeight h then h :: insertIssueSorted x t
      else x :: h :: t

def sortIssues : List AggIssue → List AggIssue
  | [] => []
  | h :: t => insertIssueSorted h (sortIssues t)

/-- `SitewideAnalyzer.generateRecommendations` (lines 1662-1685); the
leading emoji of each line is omitted from the model. -/
def generateRecommendations (issues : List AggIssue) (averageScore : ℤ) :
    List String :=
  let recommendations :=
    (if averageScore < 50 then
       ["Prioriteit: Focus op basis SEO elementen (title, H1, meta description)"]
     else if averageScore < 70 then
       ["Verbetering: Werk aan technische SEO aspecten"]
     else
       ["Goed: Focus op content optimalisatie en gebruikerservaring"]) ++
    (issues.take 3).filterMap (fun issue =>
      if strContains issue.message "Title" then
        some ("Voeg unieke, beschrijvende titles toe aan " ++
          toString issue.count ++ " pagina\x27s")
      else if strContains issue.message "H1" then
        some ("Zorg voor een duidelijke H1 per pagina op " ++
          toString issue.count ++ " pagina\x27s")
      else if strContains issue.message "Meta description" then
        some ("Schrijf aantrekkelijke meta descriptions voor " ++
          toString issue.count ++ " pagina\x27s")
      else none)
  recommendations.take 5

/-- Result of `calculateSitewideStats` (lines 1606-1660). -/
structure SitewideResults where
  totalPages : Nat
  successfulPages : Nat
  averageScore : ℤ
  pages : List PageAnalysis
  issues : List AggIssue
  recommendations : List String
  deriving Repr, DecidableEq

/-- `SitewideAnalyzer.calculateSitewideStats` (lines 1606-1660). -/
def calculateSitewideStats (analyzedPages : List PageAnalysis) :
    SitewideResults :=
  let totalPages := analyzedPages.length
  let successfulPages := analyzedPages.filter (fun p => p.error == none)
  if successfulPages.length == 0 then
    { totalPages := totalPages, successfulPages := 0, averageScore := 0,
      pages := analyzedPages, issues := [], recommendations := [] }
  else
    let averageScore := jsRound
      ((((successfulPages.map (fun p => p.score)).sum : ℤ) : ℚ) /
        (successfulPages.length : ℚ))
    let allIssues := sortIssues (foldIssues successfulPages)
    { totalPages := totalPages
      successfulPages := successfulPages.length
      averageScore := averageScore
      pages := analyzedPages
      issues := allIssues.take 10
      recommendations := generateRecommendations allIssues averageScore }

/-- `SitewideAnalyzer.analyzeSitewide` (lines 1436-1496), minus the UI
calls and the busy flag: discover, analyze each page, aggregate. -/
def analyzeSitewide (fetchLinks : String → Option (List String))
    (parseUrl : String → Option Url) (resolve : Resolver)
    (analyze : String → Except String (ℤ × List Issue)) (baseUrl : String)
    (maxPages : Nat) (includeSubdomains : Bool) : SitewideResults :=
  let internalUrls := discoverInternalPages fetchLinks parseUrl resolve
    baseUrl maxPages includeSubdomains
  calculateSitewideStats (analyzePages analyze internalUrls)

/-! ### Concrete fixtures used by witnesses and counterexamples -/

/-- A tiny concrete instantiation of the `new URL(s)` builtin: a finite
table over the URLs used in examples. -/
def parseUrlEx : String → Option Url := fun s =>
  if s == "https://a.com/" then some ⟨"https:", "a.com", "/", [], ""⟩
  else if s == "https://a.com/page" then
    some ⟨"https:", "a.com", "/page", [], ""⟩
  else if s == "https://a.com/p?x=1&fbclid=ZZ#frag" then
    some ⟨"https:", "a.com", "/p", [("x", "1"), ("fbclid", "ZZ")], "#frag"⟩
  else if s == "https://a.com/p?x=1" then
    some ⟨"https:", "a.com", "/p", [("x", "1")], ""⟩
  else none

/-- A concrete instantiation of `new URL(href, base).href`: absolute
`https:` hrefs resolve to themselves, everything else fails. -/
def resolveEx : Resolver := fun href _ =>
  if jsStartsWith href "https://" then some href else none

/-- A concrete `Results` record (extractor-consistent, all scorer criteria
passing). -/
def sampleResults : Results :=
  { url := "https://a.com/"
    keyword := "seo"
    status := ⟨200, true, false, false⟩
    title := ⟨true, "Schoenen kopen bij A dot com, snel geleverd", 45, true,
              some false⟩
    h1 := ⟨1, ["Schoenen"], true, false, false, ["Schoenen"]⟩
    meta := ⟨true, "beschrijving", 140, true, false, false⟩
    images := ⟨0, 0, 0, 100, []⟩
    canonical := ⟨true, some "https://a.com/", true, true⟩
    links := ⟨5, 3, 2, 0, 5⟩
    urlStructure := ⟨40, true, false, 2, true, "https:"⟩ }

/-- A concrete fetched page whose only H1 contains the keyword `"seo"`. -/
def sampleFetched : Fetched :=
  { status := 200
    xRobotsTag := none
    doc :=
      { title := some "Titel"
        h1Texts := ["Beste SEO tips"]
        metaDescription := none
        metaRobots := none
        images := []
        canonicalHref := none
        anchorHrefs := [] } }

/-! ### C7 — heading cleaning -/

/-- C7: `cleanHeadingText` strips a leading "Links" token and a trailing
"Rechtsaf" token (case-insensitive, word-boundary): `"Links Over ons"`
cleans to `"Over ons"`, `"Klik hier Rechtsaf"` to `"Klik hier"`,
`"Ga linksaf bij het kruispunt"` is unchanged (mid-string occurrences are
never stripped), and any trimmed text on which neither boundary rule fires
is returned unchanged. -/
theorem claim7_cleanHeadingText :
    cleanHeadingText "Links Over ons" = "Over ons" ∧
    cleanHeadingText "Klik hier Rechtsaf" = "Klik hier" ∧
    cleanHeadingText "Ga linksaf bij het kruispunt" =
      "Ga linksaf bij het kruispunt" ∧
    ∀ s : String, jsTrim s = s → stripLeadingLinks s.data = s.data →
      stripTrailingRechtsaf s.data = s.data → cleanHeadingText s = s := by
  refine ⟨by decide, by decide, by decide, ?_⟩
  intro s h1 h2 h3
  have hmk : ∀ t : String, String.mk t.data = t := fun _ => rfl
  unfold cleanHeadingText
  simp only [h1, h2, hmk, h3]
  split <;> rfl

/-- Witness for `claim7_cleanHeadingText`: the general clause applied to a
heading containing neither token. -/
theorem claim7_witness : cleanHeadingText "Hallo wereld" = "Hallo wereld" :=
  claim7_cleanHeadingText.2.2.2 "Hallo wereld" (by decide) (by decide)
    (by decide)

/-! ### C10 — cleaning never returns the empty string -/

theorem dropWhile_any_not (p : Char → Bool) (l : List Char)
    (h : l.any (fun c => !p c) = true) :
    l.dropWhile p ≠ [] ∧ (l.dropWhile p).any (fun c => !p c) = true := by
  induction l with
  | nil => simp at h
  | cons c t ih =>
      by_cases hc : p c = true
      · have ht : t.any (fun c => !p c) = true := by
          simp [List.any_cons, hc] at h
          simpa using h
        simpa [List.dropWhile_cons, hc] using ih ht
      · refine ⟨by simp [List.dropWhile_cons, hc], ?_⟩
        simp [List.dropWhile_cons, hc, List.any_cons]

theorem jsTrim_ne_empty (s : String)
    (h : s.data.any (fun c => !c.isWhitespace) = true) : jsTrim s ≠ "" := by
  intro hc
  have hdata : ((s.data.dropWhile Char.isWhitespace).reverse.dropWhile
      Char.isWhitespace).reverse = [] := congrArg String.data hc
  obtain ⟨-, h2⟩ := dropWhile_any_not Char.isWhitespace s.data h
  have h3 : (s.data.dropWhile Char.isWhitespace).reverse.any
      (fun c => !c.isWhitespace) = true := by
    simpa [List.any_reverse] using h2
  obtain ⟨h4, -⟩ := dropWhile_any_not Char.isWhitespace _ h3
  rw [List.reverse_eq_nil_iff] at hdata
  exact h4 hdata

/-- C10 (implicit): on any input containing a non-whitespace character,
`cleanHeadingText` never returns the empty string — when stripping the
boundary tokens would leave nothing the original trimmed text comes back
(`"Links"`, `"Rechtsaf"`, `" Links Rechtsaf "`). -/
theorem claim10_cleanHeadingText_nonempty :
    (∀ s : String, s.data.any (fun c => !c.isWhitespace) = true →
        cleanHeadingText s ≠ "") ∧
    cleanHeadingText "Links" = "Links" ∧
    cleanHeadingText "Rechtsaf" = "Rechtsaf" ∧
    cleanHeadingText " Links Rechtsaf " = "Links Rechtsaf" := by
  refine ⟨?_, by decide, by decide, by decide⟩
  intro s h
  have hsne : (s == "") = false := by
    rcases hb : s == "" with _ | _
    · rfl
    · rw [beq_iff_eq] at hb
      subst hb
      simp at h
  unfold cleanHeadingText
  simp only [hsne, Bool.false_eq_true, if_false]
  split
  · exact jsTrim_ne_empty s h
  · rename_i hcl
    intro hfalse
    rw [hfalse] at hcl
    simp at hcl

/-- Witness for `claim10_cleanHeadingText_nonempty` at the heading
`"Links"`. -/
theorem claim10_witness :
    ("Links".data.any (fun c => !c.isWhitespace) = true) ∧
    cleanHeadingText "Links" ≠ "" :=
  ⟨by decide, claim10_cleanHeadingText_nonempty.1 "Links" (by decide)⟩

/-! ### C1 — scorer -/

/-- The equations between derived and base fields that the fact extractor
guarantees (`analyzeTitle` line 160, `analyzeH1` line 193, `analyzeMeta`
line 210, `analyzeURL` line 296). -/
def resultsWellFormed (r : Results) : Prop :=
  r.title.isOptimal =
    (decide (30 ≤ r.title.length) && decide (r.title.length ≤ 60)) ∧
  r.h1.isOptimal = (r.h1.count == 1) ∧
  r.meta.isOptimal =
    (decide (120 ≤ r.meta.length) && decide (r.meta.length ≤ 160)) ∧
  r.urlStructure.isShort = decide (r.urlStructure.length ≤ 100)

theorem analyzeWebsiteCore_wellFormed {parseUrl : String → Option Url}
    {resolve : Resolver} {url keyword : String} {f : Fetched} {r : Results}
    (h : analyzeWebsiteCore parseUrl resolve url keyword f = some r) :
    resultsWellFormed r := by
  unfold analyzeWebsiteCore at h
  cases hu : analyzeURL parseUrl url with
  | none => rw [hu] at h; exact absurd h (by simp)
  | some us =>
      rw [hu] at h
      have hus : us.isShort = decide (us.length ≤ 100) := by
        unfold analyzeURL at hu
        cases hp : parseUrl url with
        | none => rw [hp] at hu; exact absurd hu (by simp)
        | some uo =>
            rw [hp] at hu
            injection hu with hu
            subst hu
            rfl
      injection h with h
      subst h
      exact ⟨by simp [analyzeTitle], by simp [analyzeH1],
        by simp [analyzeMeta], hus⟩

/-- C1: on any extractor-consistent `Results` with HTTP success, a
45-character title, exactly one H1, a 140-character meta description, full
alt coverage, a canonical tag, zero broken links and a short readable
40-character URL, `calculateScore` returns exactly 100; the scorer's
weights sum to 100, extractor output is always extractor-consistent, and
the score is a deterministic function of the facts. -/
theorem claim1_perfect_score :
    (∀ r : Results, resultsWellFormed r →
      r.status.isSuccess = true → r.title.exists_ = true →
      r.title.length = 45 → r.h1.count = 1 → r.meta.exists_ = true →
      r.meta.length = 140 → r.images.percentage = 100 →
      r.canonical.exists_ = true → r.links.broken = 0 →
      r.urlStructure.length = 40 → r.urlStructure.isReadable = true →
      calculateScore r = 100) ∧
    scorerMaxScore = 100 ∧
    (∀ (parseUrl : String → Option Url) (resolve : Resolver)
        (url keyword : String) (f : Fetched) (r : Results),
      analyzeWebsiteCore parseUrl resolve url keyword f = some r →
      resultsWellFormed r) ∧
    (∀ r₁ r₂ : Results, r₁ = r₂ → calculateScore r₁ = calculateScore r₂) := by
  refine ⟨?_, rfl, fun _ _ _ _ _ _ h => analyzeWebsiteCore_wellFormed h,
    fun r₁ r₂ h => by rw [h]⟩
  intro r hwf hS hTe hTl hH1 hMe hMl hIp hCe hLb hUl hUr
  obtain ⟨w1, w2, w3, w4⟩ := hwf
  unfold calculateScore
  simp only [hS, hTe, w1, hTl, w2, hH1, hMe, w3, hMl, hIp, hCe, hLb, w4,
    hUl, hUr]
  norm_num [jsRound, scorerMaxScore]

/-- Witness for `claim1_perfect_score` on `sampleResults`. -/
theorem claim1_witness :
    resultsWellFormed sampleResults ∧ calculateScore sampleResults = 100 :=
  ⟨⟨rfl, rfl, rfl, rfl⟩,
    claim1_perfect_score.1 sampleResults ⟨rfl, rfl, rfl, rfl⟩ rfl rfl rfl rfl
      rfl rfl rfl rfl rfl rfl rfl⟩

/-! ### C9 — cache TTL -/

theorem analyzeWebsite_eq (parseUrl : String → Option Url)
    (resolve : Resolver) (c : Cache) (now : Nat) (url keyword : String)
    (doClean : Bool) (oracle : Option Fetched) :
    analyzeWebsite parseUrl resolve c now url keyword doClean oracle =
      match cacheGetEntry (if doClean then cleanCache now c else c)
          (url ++ "-" ++ keyword) with
      | some cached =>
          if now - cached.timestamp < cacheExpiry then
            (Except.ok (cached.results, false),
             if doClean then cleanCache now c else c)
          else
            analyzeWebsiteFetch parseUrl resolve
              (if doClean then cleanCache now c else c) now url keyword oracle
      | none =>
          analyzeWebsiteFetch parseUrl resolve
            (if doClean then cleanCache now c else c) now url keyword
            oracle := rfl

theorem analyzeWebsiteFetch_shape {parseUrl : String → Option Url}
    {resolve : Resolver} {c : Cache} {now : Nat} {url keyword : String}
    {oracle : Option Fetched} {r : Results} {b : Bool} {c' : Cache}
    (h : analyzeWebsiteFetch parseUrl resolve c now url keyword oracle =
      (Except.ok (r, b), c')) :
    b = true ∧ c' = cacheSet c (url ++ "-" ++ keyword) ⟨r, now⟩ := by
  unfold analyzeWebsiteFetch at h
  cases oracle with
  | none => exact absurd h (by simp)
  | some f =>
      dsimp only at h
      cases hcore : analyzeWebsiteCore parseUrl resolve url keyword f with
      | none => rw [hcore] at h; exact absurd h (by simp)
      | some res =>
          rw [hcore] at h
          rw [Prod.mk.injEq, Except.ok.injEq, Prod.mk.injEq] at h
          obtain ⟨⟨h1, h2⟩, h3⟩ := h
          subst h1; subst h2; subst h3
          exact ⟨rfl, rfl⟩

/-- C9: (a) a cache read that is served without a retrieval always comes
from an entry younger than the 5-minute TTL; (b) when every entry under
the key has age ≥ TTL the call takes the fetch path (a fresh retrieval);
(c) a store (fetching call) followed within the TTL by a call with the
same key returns the stored facts with no new retrieval. -/
theorem claim9_cache_ttl :
    (∀ (parseUrl : String → Option Url) (resolve : Resolver) (c : Cache)
        (now : Nat) (url keyword : String) (doClean : Bool)
        (oracle : Option Fetched) (r : Results) (c' : Cache),
      analyzeWebsite parseUrl resolve c now url keyword doClean oracle =
        (Except.ok (r, false), c') →
      ∃ e, cacheGetEntry (if doClean then cleanCache now c else c)
            (url ++ "-" ++ keyword) = some e ∧
          now - e.timestamp < cacheExpiry ∧ r = e.results) ∧
    (∀ (parseUrl : String → Option Url) (resolve : Resolver) (c : Cache)
        (now : Nat) (url keyword : String) (doClean : Bool)
        (oracle : Option Fetched),
      (∀ e, cacheGetEntry (if doClean then cleanCache now c else c)
            (url ++ "-" ++ keyword) = some e →
          cacheExpiry ≤ now - e.timestamp) →
      analyzeWebsite parseUrl resolve c now url keyword doClean oracle =
        analyzeWebsiteFetch parseUrl resolve
          (if doClean then cleanCache now c else c) now url keyword oracle) ∧
    (∀ (parseUrl : String → Option Url) (resolve : Resolver) (c : Cache)
        (now : Nat) (url keyword : String) (doClean : Bool)
        (oracle : Option Fetched) (r : Results) (c' : Cache),
      analyzeWebsite parseUrl resolve c now url keyword doClean oracle =
        (Except.ok (r, true), c') →
      ∀ (now' : Nat) (doClean' : Bool) (oracle' : Option Fetched),
        now' - now < cacheExpiry →
        analyzeWebsite parseUrl resolve c' now' url keyword doClean' oracle' =
          (Except.ok (r, false),
           if doClean' then cleanCache now' c' else c')) := by
  refine ⟨?_, ?_, ?_⟩
  · intro parseUrl resolve c now url keyword doClean oracle r c' h
    rw [analyzeWebsite_eq] at h
    cases hget : cacheGetEntry (if doClean then cleanCache now c else c)
        (url ++ "-" ++ keyword) with
    | none =>
        rw [hget] at h
        exact absurd (analyzeWebsiteFetch_shape h).1 (by simp)
    | some e =>
        rw [hget] at h
        dsimp only at h
        by_cases hfresh : now - e.timestamp < cacheExpiry
        · rw [if_pos hfresh, Prod.mk.injEq, Except.ok.injEq,
            Prod.mk.injEq] at h
          exact ⟨e, rfl, hfresh, h.1.1.symm⟩
        · rw [if_neg hfresh] at h
          exact absurd (analyzeWebsiteFetch_shape h).1 (by simp)
  · intro parseUrl resolve c now url keyword doClean oracle hstale
    rw [analyzeWebsite_eq]
    cases hget : cacheGetEntry (if doClean then cleanCache now c else c)
        (url ++ "-" ++ keyword) with
    | none => rfl
    | some e =>
        have hs := hstale e hget
        have hfresh : ¬(now - e.timestamp < cacheExpiry) := by omega
        dsimp only
        rw [if_neg hfresh]
  · intro parseUrl resolve c now url keyword doClean oracle r c' h now'
      doClean' oracle' hyoung
    have hc' : c' = cacheSet (if doClean then cleanCache now c else c)
        (url ++ "-" ++ keyword) ⟨r, now⟩ := by
      rw [analyzeWebsite_eq] at h
      cases hget : cacheGetEntry (if doClean then cleanCache now c else c)
          (url ++ "-" ++ keyword) with
      | none =>
          rw [hget] at h
          exact (analyzeWebsiteFetch_shape h).2
      | some e =>
          rw [hget] at h
          dsimp only at h
          by_cases hfresh : now - e.timestamp < cacheExpiry
          · rw [if_pos hfresh, Prod.mk.injEq, Except.ok.injEq,
              Prod.mk.injEq] at h
            exact absurd h.1.2 (by simp)
          · rw [if_neg hfresh] at h
            exact (analyzeWebsiteFetch_shape h).2
    have hset : cacheGetEntry c' (url ++ "-" ++ keyword) = some ⟨r, now⟩ := by
      rw [hc']
      unfold cacheGetEntry cacheSet
      simp
    have hnotstale : ¬(now' - now > cacheExpiry) := by omega
    have hget' : cacheGetEntry (if doClean' then cleanCache now' c' else c')
        (url ++ "-" ++ keyword) = some ⟨r, now⟩ := by
      cases doClean' with
      | false => simpa using hset
      | true =>
          simp only [if_true]
          unfold cacheGetEntry cleanCache
          unfold cacheGetEntry at hset
          rw [hset]
          dsimp only
          rw [if_neg hnotstale]
    rw [analyzeWebsite_eq, hget']
    dsimp only
    rw [if_pos hyoung]

/-- A concrete one-entry cache for the C9 witness. -/
def cacheEx : Cache := fun k =>
  if k == "https://a.com/-seo" then some ⟨sampleResults, 0⟩ else none

/-- Witness for `claim9_cache_ttl`: a fresh entry is served from the cache
and is younger than the TTL. -/
theorem claim9_witness :
    ∃ e, cacheGetEntry cacheEx ("https://a.com/" ++ "-" ++ "seo") = some e ∧
      0 - e.timestamp < cacheExpiry ∧ sampleResults = e.results :=
  claim9_cache_ttl.1 parseUrlEx resolveEx cacheEx 0 "https://a.com/" "seo"
    false none sampleResults cacheEx rfl

/-! ### C4 — crawler bound and small `maxPages` -/

/-- C4 (amended): `discoverInternalPages` is total (this definition is
accepted by well-founded recursion, so it terminates on every finite link
graph, cyclic ones included), never returns more than `maxPages` URLs, and
returns exactly the seed when `maxPages = 1`.  (`maxPages = 0` returns
`[]`, see the counterexample.) -/
theorem claim4_discover_bounded :
    (∀ (fetchLinks : String → Option (List String))
        (parseUrl : String → Option Url) (resolve : Resolver)
        (baseUrl : String) (maxPages : Nat) (inc : Bool),
      (discoverInternalPages fetchLinks parseUrl resolve baseUrl maxPages
        inc).length ≤ maxPages) ∧
    (∀ (fetchLinks : String → Option (List String))
        (parseUrl : String → Option Url) (resolve : Resolver)
        (baseUrl : String) (inc : Bool),
      discoverInternalPages fetchLinks parseUrl resolve baseUrl 1 inc =
        [baseUrl]) ∧
    (∀ (fetchLinks : String → Option (List String))
        (parseUrl : String → Option Url) (resolve : Resolver)
        (baseUrl : String) (inc : Bool),
      discoverInternalPages fetchLinks parseUrl resolve baseUrl 0 inc =
        []) := by
  refine ⟨?_, ?_, ?_⟩
  · intro fetchLinks parseUrl resolve baseUrl maxPages inc
    unfold discoverInternalPages
    rw [List.length_take]
    exact min_le_left _ _
  · intro fetchLinks parseUrl resolve baseUrl inc
    unfold discoverInternalPages
    unfold crawlLoop
    norm_num
  · intro fetchLinks parseUrl resolve baseUrl inc
    rfl

/-- C4 counterexample: with `maxPages = 0` the function returns `[]`
(`Array.from(foundUrls).slice(0, 0)`), not the seed as the claim states. -/
theorem claim4_counterexample :
    discoverInternalPages (fun _ => some []) (fun _ => none)
        (fun _ _ => none) "https://a.com/" 0 false = [] ∧
    discoverInternalPages (fun _ => some []) (fun _ => none)
        (fun _ _ => none) "https://a.com/" 0 false ≠ ["https://a.com/"] :=
  ⟨rfl, fun hc => (by simp : ([] : List String) ≠ ["https://a.com/"]) hc⟩

/-! ### C8 — URL canonicalization and dedup -/

def trackingParamsList : List String :=
  ["utm_source", "utm_medium", "utm_campaign", "fbclid", "gclid"]

theorem foldl_delete_params (names : List String)
    (ps : List (String × String)) :
    names.foldl (fun ps name => ps.filter (fun kv => kv.1 ≠ name)) ps =
    ps.filter (fun kv => decide (kv.1 ∉ names)) := by
  induction names generalizing ps with
  | nil => simp
  | cons n ns ih =>
      rw [List.foldl_cons, ih, List.filter_filter]
      apply List.filter_congr
      intro kv _
      simp [List.mem_cons, not_or, Bool.and_comm]

theorem cleanUrl_parsed (parseUrl : String → Option Url) (s : String)
    (u : Url) (h : parseUrl s = some u) :
    cleanUrl parseUrl s =
      Url.href { u with
        hash := ""
        searchParams := u.searchParams.filter
          (fun kv => decide (kv.1 ∉ trackingParamsList)) } := by
  unfold cleanUrl
  rw [h]
  dsimp only
  rw [foldl_delete_params]
  rfl

theorem crawlStep_nodup (parseUrl : String → Option Url) (resolve : Resolver)
    (baseUrl currentUrl : String) (inc : Bool) (maxPages : Nat)
    (fq : List String × List String) (href : String) (h : fq.1.Nodup) :
    (crawlStep parseUrl resolve baseUrl currentUrl inc maxPages
      fq href).1.Nodup := by
  unfold crawlStep
  dsimp only
  repeat' split
  all_goals try exact h
  rename_i hcond
  simp only [Bool.and_eq_true, decide_eq_true_eq, Bool.not_eq_true'] at hcond
  refine List.Nodup.append h (List.nodup_singleton _) ?_
  intro x hx hx2
  rw [List.mem_singleton] at hx2
  rw [hx2] at hx
  exact absurd hx (by simpa using hcond.1.2)

theorem processLinks_nodup (parseUrl : String → Option Url)
    (resolve : Resolver) (baseUrl currentUrl : String) (inc : Bool)
    (maxPages : Nat) (links : List String) (fq : List String × List String)
    (h : fq.1.Nodup) :
    (processLinks parseUrl resolve baseUrl currentUrl inc maxPages
      links fq).1.Nodup := by
  induction links generalizing fq with
  | nil => exact h
  | cons l t ih =>
      exact ih _ (crawlStep_nodup parseUrl resolve baseUrl currentUrl inc
        maxPages fq l h)

theorem crawlLoop_nodup (fetchLinks : String → Option (List String))
    (parseUrl : String → Option Url) (resolve : Resolver) (baseUrl : String)
    (inc : Bool) (maxPages : Nat) (found crawled queue : List String) :
    found.Nodup →
    (crawlLoop fetchLinks parseUrl resolve baseUrl inc maxPages
      found crawled queue).Nodup := by
  induction found, crawled, queue using crawlLoop.induct fetchLinks parseUrl
      resolve baseUrl inc maxPages
  all_goals intro h
  all_goals unfold crawlLoop
  case case4 ih =>
    simp_all
    exact ih (processLinks_nodup parseUrl resolve baseUrl _ inc maxPages _
      _ h)
  case case5 =>
    rename_i hge
    rw [dif_neg (by omega)]
    exact h
  all_goals simp_all

/-- C8: URL canonicalization removes the fragment and exactly the five
tracking parameters, so two parsed URLs differing only in fragment and/or
those parameters clean to the same string; and the discovery output never
contains a duplicate entry (the `foundUrls` set deduplicates). -/
theorem claim8_canonicalization :
    (∀ (parseUrl : String → Option Url) (s₁ s₂ : String) (u₁ u₂ : Url),
      parseUrl s₁ = some u₁ → parseUrl s₂ = some u₂ →
      u₁.protocol = u₂.protocol → u₁.hostname = u₂.hostname →
      u₁.pathname = u₂.pathname →
      u₁.searchParams.filter (fun kv => decide (kv.1 ∉ trackingParamsList)) =
        u₂.searchParams.filter
          (fun kv => decide (kv.1 ∉ trackingParamsList)) →
      cleanUrl parseUrl s₁ = cleanUrl parseUrl s₂) ∧
    (∀ (fetchLinks : String → Option (List String))
        (parseUrl : String → Option Url) (resolve : Resolver)
        (baseUrl : String) (maxPages : Nat) (inc : Bool),
      (discoverInternalPages fetchLinks parseUrl resolve baseUrl maxPages
        inc).Nodup) := by
  constructor
  · intro parseUrl s₁ s₂ u₁ u₂ h1 h2 hp hh hpa hq
    rw [cleanUrl_parsed _ _ _ h1, cleanUrl_parsed _ _ _ h2]
    unfold Url.href
    dsimp only
    rw [hp, hh, hpa, hq]
  · intro fetchLinks parseUrl resolve baseUrl maxPages inc
    exact (List.take_sublist _ _).nodup
      (crawlLoop_nodup fetchLinks parseUrl resolve baseUrl inc maxPages
        [baseUrl] [] [baseUrl] (List.nodup_singleton _))

/-- Witness for `claim8_canonicalization`: dropping `fbclid` and the
fragment makes the two example URLs canonicalize identically. -/
theorem claim8_witness :
    cleanUrl parseUrlEx "https://a.com/p?x=1&fbclid=ZZ#frag" =
      cleanUrl parseUrlEx "https://a.com/p?x=1" :=
  claim8_canonicalization.1 parseUrlEx _ _
    ⟨"https:", "a.com", "/p", [("x", "1"), ("fbclid", "ZZ")], "#frag"⟩
    ⟨"https:", "a.com", "/p", [("x", "1")], ""⟩
    (by decide) (by decide) rfl rfl rfl (by decide)

/-! ### C6 — link analysis cap -/

/-- Modelled from the claim's words for comparison with the source: skip
non-qualifying links first, then inspect up to the first 20 *qualifying*
links. -/
def analyzeLinksClaim (parseUrl : String → Option Url) (resolve : Resolver)
    (anchorHrefs : List String) (baseUrl : String) : LinkData :=
  ((anchorHrefs.filter (fun h => !isSkippedHref h)).take 20).foldl
    (linkStep parseUrl resolve baseUrl)
    { total := anchorHrefs.length, internal := 0, external := 0,
      broken := 0, checked := 0 }

/-- A document whose first 20 anchors are fragment-only and whose 21st is a
real internal link. -/
def hrefs21 : List String := List.replicate 20 "#top" ++ ["https://a.com/page"]

/-- C6 counterexample: the source slices the first 20 anchors *before* the
skip test (`Array.from(links).slice(0, 20)`), so with 20 leading
fragment-only anchors the qualifying 21st link is never inspected, while
the claim's reading (first 20 qualifying links) would inspect it. -/
theorem claim6_counterexample :
    analyzeLinks parseUrlEx resolveEx hrefs21 "https://a.com/" ≠
      analyzeLinksClaim parseUrlEx resolveEx hrefs21 "https://a.com/" ∧
    (analyzeLinks parseUrlEx resolveEx hrefs21 "https://a.com/").checked = 0 ∧
    (analyzeLinksClaim parseUrlEx resolveEx hrefs21
      "https://a.com/").checked = 1 := by
  refine ⟨by decide, by decide, by decide⟩

/-- `href` fails to resolve or parse against the page URL (the `catch` of
lines 282-284). -/
def linkFails (parseUrl : String → Option Url) (resolve : Resolver)
    (baseUrl href : String) : Bool :=
  match resolve href baseUrl with
  | none => true
  | some fullUrl =>
      match parseUrl fullUrl, parseUrl baseUrl with
      | some _, some _ => false
      | _, _ => true

/-- `href` resolves and its hostname equals the page's. -/
def linkInternal (parseUrl : String → Option Url) (resolve : Resolver)
    (baseUrl href : String) : Bool :=
  match resolve href baseUrl with
  | none => false
  | some fullUrl =>
      match parseUrl fullUrl, parseUrl baseUrl with
      | some fu, some bu => fu.hostname == bu.hostname
      | _, _ => false

/-- `href` resolves and its hostname differs from the page's. -/
def linkExternal (parseUrl : String → Option Url) (resolve : Resolver)
    (baseUrl href : String) : Bool :=
  match resolve href baseUrl with
  | none => false
  | some fullUrl =>
      match parseUrl fullUrl, parseUrl baseUrl with
      | some fu, some bu => !(fu.hostname == bu.hostname)
      | _, _ => false

theorem linkInternal_not_external (parseUrl : String → Option Url)
    (resolve : Resolver) (baseUrl href : String)
    (h : linkInternal parseUrl resolve baseUrl href = true) :
    linkExternal parseUrl resolve baseUrl href = false := by
  unfold linkInternal at h
  unfold linkExternal
  cases hres : resolve href baseUrl with
  | none => simp [hres] at h
  | some full =>
      simp only [hres] at h
      dsimp only at h ⊢
      cases hfu : parseUrl full with
      | none => simp [hfu] at h
      | some fu =>
          simp only [hfu] at h
          cases hbu : parseUrl baseUrl with
          | none => simp [hbu] at h
          | some bu =>
              simp only [hbu] at h
              dsimp only at h ⊢
              simp_all

theorem linkStep_counts (parseUrl : String → Option Url) (resolve : Resolver)
    (baseUrl : String) (d : LinkData) (href : String) :
    (linkStep parseUrl resolve baseUrl d href).total = d.total ∧
    (linkStep parseUrl resolve baseUrl d href).internal = d.internal +
      (if !isSkippedHref href &&
          linkInternal parseUrl resolve baseUrl href then 1 else 0) ∧
    (linkStep parseUrl resolve baseUrl d href).external = d.external +
      (if !isSkippedHref href &&
          linkExternal parseUrl resolve baseUrl href then 1 else 0) ∧
    (linkStep parseUrl resolve baseUrl d href).broken = d.broken +
      (if !isSkippedHref href &&
          linkFails parseUrl resolve baseUrl href then 1 else 0) ∧
    (linkStep parseUrl resolve baseUrl d href).checked = d.checked +
      (if !isSkippedHref href &&
          (linkInternal parseUrl resolve baseUrl href ||
           linkExternal parseUrl resolve baseUrl href) then 1 else 0) := by
  unfold linkStep linkInternal linkExternal linkFails
  by_cases hskip : isSkippedHref href = true
  · simp [hskip]
  · rw [Bool.not_eq_true] at hskip
    cases hres : resolve href baseUrl with
    | none => simp [hskip, hres]
    | some full =>
        cases hfu : parseUrl full with
        | none => simp [hskip, hres, hfu]
        | some fu =>
            cases hbu : parseUrl baseUrl with
            | none => simp [hskip, hres, hfu, hbu]
            | some bu =>
                by_cases hhost : (fu.hostname == bu.hostname) = true
                · simp [hskip, hres, hfu, hbu, hhost]
                · rw [Bool.not_eq_true] at hhost
                  simp [hskip, hres, hfu, hbu, hhost]

theorem foldl_linkStep_counts (parseUrl : String → Option Url)
    (resolve : Resolver) (baseUrl : String) (hrefs : List String)
    (d : LinkData) :
    (hrefs.foldl (linkStep parseUrl resolve baseUrl) d).total = d.total ∧
    (hrefs.foldl (linkStep parseUrl resolve baseUrl) d).internal =
      d.internal + (hrefs.filter (fun h => !isSkippedHref h)).countP
        (linkInternal parseUrl resolve baseUrl) ∧
    (hrefs.foldl (linkStep parseUrl resolve baseUrl) d).external =
      d.external + (hrefs.filter (fun h => !isSkippedHref h)).countP
        (linkExternal parseUrl resolve baseUrl) ∧
    (hrefs.foldl (linkStep parseUrl resolve baseUrl) d).broken =
      d.broken + (hrefs.filter (fun h => !isSkippedHref h)).countP
        (linkFails parseUrl resolve baseUrl) ∧
    (hrefs.foldl (linkStep parseUrl resolve baseUrl) d).checked =
      d.checked +
        ((hrefs.filter (fun h => !isSkippedHref h)).countP
          (linkInternal parseUrl resolve baseUrl) +
         (hrefs.filter (fun h => !isSkippedHref h)).countP
          (linkExternal parseUrl resolve baseUrl)) := by
  induction hrefs generalizing d with
  | nil => simp
  | cons h t ih =>
      rw [List.foldl_cons]
      obtain ⟨i1, i2, i3, i4, i5⟩ := ih (linkStep parseUrl resolve baseUrl d h)
      obtain ⟨s1, s2, s3, s4, s5⟩ := linkStep_counts parseUrl resolve baseUrl
        d h
      refine ⟨by rw [i1, s1], ?_, ?_, ?_, ?_⟩
      · rw [i2, s2]
        rcases hskip : isSkippedHref h with _ | _ <;>
          rcases hInt : linkInternal parseUrl resolve baseUrl h with _ | _ <;>
          simp [List.filter_cons, hskip, hInt, List.countP_cons] <;> omega
      · rw [i3, s3]
        rcases hskip : isSkippedHref h with _ | _ <;>
          rcases hExt : linkExternal parseUrl resolve baseUrl h with _ | _ <;>
          simp [List.filter_cons, hskip, hExt, List.countP_cons] <;> omega
      · rw [i4, s4]
        rcases hskip : isSkippedHref h with _ | _ <;>
          rcases hBrk : linkFails parseUrl resolve baseUrl h with _ | _ <;>
          simp [List.filter_cons, hskip, hBrk, List.countP_cons] <;> omega
      · rw [i5, s5]
        rcases hskip : isSkippedHref h with _ | _
        · rcases hInt : linkInternal parseUrl resolve baseUrl h with _ | _
          · rcases hExt : linkExternal parseUrl resolve baseUrl h with
                _ | _ <;>
              simp [List.filter_cons, hskip, hInt, hExt,
                List.countP_cons] <;> omega
          · have hExt := linkInternal_not_external parseUrl resolve baseUrl
              h hInt
            simp [List.filter_cons, hskip, hInt, hExt, List.countP_cons]
            omega
        · simp [List.filter_cons, hskip, List.countP_cons]

/-- C6 (amended): the cap applies to the first 20 anchors with an `href`
attribute (sliced before the skip test); among those, fragment-only,
`mailto:` and `tel:` links are skipped, a link that fails to
resolve/parse counts as broken, the rest are classified internal/external
by hostname equality, and `checked = internal + external`. -/
theorem claim6_links_capped (parseUrl : String → Option Url)
    (resolve : Resolver) (anchorHrefs : List String) (baseUrl : String) :
    (analyzeLinks parseUrl resolve anchorHrefs baseUrl).total =
      anchorHrefs.length ∧
    (analyzeLinks parseUrl resolve anchorHrefs baseUrl).internal =
      ((anchorHrefs.take 20).filter (fun h => !isSkippedHref h)).countP
        (linkInternal parseUrl resolve baseUrl) ∧
    (analyzeLinks parseUrl resolve anchorHrefs baseUrl).external =
      ((anchorHrefs.take 20).filter (fun h => !isSkippedHref h)).countP
        (linkExternal parseUrl resolve baseUrl) ∧
    (analyzeLinks parseUrl resolve anchorHrefs baseUrl).broken =
      ((anchorHrefs.take 20).filter (fun h => !isSkippedHref h)).countP
        (linkFails parseUrl resolve baseUrl) ∧
    (analyzeLinks parseUrl resolve anchorHrefs baseUrl).checked =
      (analyzeLinks parseUrl resolve anchorHrefs baseUrl).internal +
        (analyzeLinks parseUrl resolve anchorHrefs baseUrl).external := by
  obtain ⟨f1, f2, f3, f4, f5⟩ := foldl_linkStep_counts parseUrl resolve
    baseUrl (anchorHrefs.take 20)
    { total := anchorHrefs.length, internal := 0, external := 0,
      broken := 0, checked := 0 }
  unfold analyzeLinks
  exact ⟨f1, by simpa using f2, by simpa using f3, by simpa using f4,
    by rw [f5, f2, f3]; simp⟩

/-! ### C5 — H1 keyword flag -/

/-- C5: the produced `h1.keywordPresent` is always `false` — the call at
line 37, `this.analyzeH1(doc)`, never forwards the keyword, so the
case-insensitive substring test at lines 184-188 is dead code.  At the
concrete failing input the cleaned H1 `"Beste SEO tips"` does contain the
keyword `"seo"`, yet the produced flag is `false`. -/
theorem claim5_keywordPresent_always_false :
    (∀ (parseUrl : String → Option Url) (resolve : Resolver)
        (url keyword : String) (f : Fetched),
      ((analyzeWebsiteCore parseUrl resolve url keyword f).map
        (fun r => r.h1.keywordPresent)).getD false = false) ∧
    (analyzeWebsiteCore parseUrlEx resolveEx "https://a.com/" "seo"
        sampleFetched).map (fun r => r.h1.keywordPresent) = some false ∧
    ((sampleFetched.doc.h1Texts.map (fun t => cleanHeadingText (jsTrim t))).any
        (fun t => strContains (jsToLower t) (jsToLower "seo"))) = true := by
  refine ⟨?_, by decide, by decide⟩
  intro parseUrl resolve url keyword f
  unfold analyzeWebsiteCore
  cases analyzeURL parseUrl url <;> simp [analyzeH1]

/-! ### C2 — sitewide resilience and statistics -/

/-- The entry pushed for one URL (success or degraded). -/
def pageOf (analyze : String → Except String (ℤ × List Issue))
    (url : String) : PageAnalysis :=
  match analyze url with
  | Except.ok si => ⟨url, none, si.1, si.2⟩
  | Except.error msg => ⟨url, some msg, 0, []⟩

/-- The per-page analysis succeeded. -/
def okPage (analyze : String → Except String (ℤ × List Issue))
    (url : String) : Bool :=
  match analyze url with
  | Except.ok _ => true
  | Except.error _ => false

/-- The score recorded for one URL (0 for a degraded entry). -/
def pageScore (analyze : String → Except String (ℤ × List Issue))
    (url : String) : ℤ :=
  match analyze url with
  | Except.ok si => si.1
  | Except.error _ => 0

theorem analyzePages_eq_map (analyze : String → Except String (ℤ × List Issue))
    (urls : List String) : analyzePages analyze urls = urls.map (pageOf analyze) := by
  unfold analyzePages pageOf
  apply List.map_congr_left
  intro u _hu
  cases h : analyze u with
  | ok si =>
      cases si
      rfl
  | error msg => rfl

theorem calculateSitewideStats_pages (pages : List PageAnalysis) :
    (calculateSitewideStats pages).pages = pages := by
  unfold calculateSitewideStats
  dsimp only
  split <;> rfl

theorem calculateSitewideStats_totalPages (pages : List PageAnalysis) :
    (calculateSitewideStats pages).totalPages = pages.length := by
  unfold calculateSitewideStats
  dsimp only
  split <;> rfl

theorem calculateSitewideStats_successfulPages (pages : List PageAnalysis) :
    (calculateSitewideStats pages).successfulPages =
      (pages.filter (fun p => p.error == none)).length := by
  unfold calculateSitewideStats
  dsimp only
  split
  · rename_i hz
    simp only [beq_iff_eq] at hz
    exact hz.symm
  · rfl

theorem calculateSitewideStats_averageScore (pages : List PageAnalysis) :
    (calculateSitewideStats pages).averageScore =
      if (pages.filter (fun p => p.error == none)).length = 0 then 0
      else jsRound
        (((((pages.filter (fun p => p.error == none)).map
            (fun p => p.score)).sum : ℤ) : ℚ) /
          ((pages.filter (fun p => p.error == none)).length : ℚ)) := by
  unfold calculateSitewideStats
  dsimp only
  split <;> rename_i hz <;> simp only [beq_iff_eq] at hz <;>
    simp [hz]

theorem filter_map_pageOf (analyze : String → Except String (ℤ × List Issue))
    (urls : List String) :
    (urls.map (pageOf analyze)).filter (fun p => p.error == none) =
      (urls.filter (okPage analyze)).map (pageOf analyze) := by
  rw [List.filter_map]
  apply congrArg
  apply List.filter_congr
  intro u _hu
  dsimp only [Function.comp]
  unfold pageOf okPage
  cases h : analyze u with
  | ok si => rfl
  | error msg => rfl

theorem map_score_pageOf (analyze : String → Except String (ℤ × List Issue))
    (urls : List String) :
    (urls.map (pageOf analyze)).map (fun p => p.score) =
      urls.map (pageScore analyze) := by
  rw [List.map_map]
  apply List.map_congr_left
  intro u _hu
  dsimp only [Function.comp]
  unfold pageOf pageScore
  cases h : analyze u with
  | ok si => rfl
  | error msg => rfl

/-- C2: a sitewide run over the submitted URL list always produces a
result: every URL yields one entry, a failing page yields the degraded
entry `{url, error, score: 0}` and never aborts the run, `totalPages`
counts all submitted pages, `successfulPages` only those without an
error, and `averageScore` is the rounded mean of the successful pages'
scores (0 when none succeeded); `analyzeSitewide` is exactly this pipeline
over the discovered pages. -/
theorem claim2_sitewide_resilient :
    (∀ (analyze : String → Except String (ℤ × List Issue))
        (urls : List String),
      (calculateSitewideStats (analyzePages analyze urls)).totalPages =
        urls.length ∧
      (calculateSitewideStats (analyzePages analyze urls)).successfulPages =
        (urls.filter (okPage analyze)).length ∧
      (∀ u msg, u ∈ urls → analyze u = Except.error msg →
        (⟨u, some msg, 0, []⟩ : PageAnalysis) ∈
          (calculateSitewideStats (analyzePages analyze urls)).pages) ∧
      (calculateSitewideStats (analyzePages analyze urls)).averageScore =
        (if (urls.filter (okPage analyze)).length = 0 then 0
         else jsRound
           (((((urls.filter (okPage analyze)).map (pageScore analyze)).sum :
              ℤ) : ℚ) / ((urls.filter (okPage analyze)).length : ℚ)))) ∧
    (∀ (fetchLinks : String → Option (List String))
        (parseUrl : String → Option Url) (resolve : Resolver)
        (analyze : String → Except String (ℤ × List Issue))
        (baseUrl : String) (maxPages : Nat) (inc : Bool),
      analyzeSitewide fetchLinks parseUrl resolve analyze baseUrl maxPages
          inc =
        calculateSitewideStats (analyzePages analyze
          (discoverInternalPages fetchLinks parseUrl resolve baseUrl
            maxPages inc))) := by
  refine ⟨?_, fun _ _ _ _ _ _ _ => rfl⟩
  intro analyze urls
  rw [analyzePages_eq_map]
  refine ⟨?_, ?_, ?_, ?_⟩
  · rw [calculateSitewideStats_totalPages, List.length_map]
  · rw [calculateSitewideStats_successfulPages, filter_map_pageOf,
      List.length_map]
  · intro u msg hu hmsg
    rw [calculateSitewideStats_pages]
    have : pageOf analyze u = ⟨u, some msg, 0, []⟩ := by
      unfold pageOf
      rw [hmsg]
    exact this ▸ List.mem_map_of_mem (pageOf analyze) hu
  · rw [calculateSitewideStats_averageScore, filter_map_pageOf,
      map_score_pageOf, List.length_map]

/-- Three discovered URLs of which the second one fails to analyze. -/
def urlsEx2 : List String :=
  ["https://a.com/", "https://a.com/b", "https://a.com/c"]

/-- A concrete per-page pipeline for the C2 witness. -/
def analyzeEx2 : String → Except String (ℤ × List Issue) := fun u =>
  if u == "https://a.com/b" then
    Except.error "Fout bij analyseren: fetch mislukt"
  else if u == "https://a.com/" then
    Except.ok (80, [⟨"warning", "Meta description ontbreekt"⟩])
  else Except.ok (70, [])

/-- Witness for `claim2_sitewide_resilient`: three pages of which the
second fails; its degraded entry is recorded, the counts and the average
come out right. -/
theorem claim2_witness :
    (calculateSitewideStats (analyzePages analyzeEx2 urlsEx2)).totalPages =
      3 ∧
    (calculateSitewideStats
      (analyzePages analyzeEx2 urlsEx2)).successfulPages = 2 ∧
    (⟨"https://a.com/b", some "Fout bij analyseren: fetch mislukt", 0, []⟩ :
      PageAnalysis) ∈
        (calculateSitewideStats (analyzePages analyzeEx2 urlsEx2)).pages ∧
    (calculateSitewideStats (analyzePages analyzeEx2 urlsEx2)).averageScore =
      75 := by
  obtain ⟨h1, h2, h3, h4⟩ := claim2_sitewide_resilient.1 analyzeEx2 urlsEx2
  refine ⟨by rw [h1]; rfl, by rw [h2]; decide, ?_, ?_⟩
  · exact h3 "https://a.com/b" "Fout bij analyseren: fetch mislukt"
      (by decide) rfl
  · rw [h4]
    have hf : urlsEx2.filter (okPage analyzeEx2) =
        ["https://a.com/", "https://a.com/c"] := by decide
    have hm : (["https://a.com/", "https://a.com/c"].map
        (pageScore analyzeEx2)) = [80, 70] := by decide
    rw [hf, hm]
    simp only [List.length_cons, List.length_nil, List.sum_cons,
      List.sum_nil]
    rw [if_neg (by omega)]
    exact jsRound_eq _ 75 (by norm_num) (by norm_num)

/-! ### C3 — order-independent issue aggregation -/

/-- `count` of the aggregated-issue-table entry for message `m`
(0 when absent). -/
def aggCount (l : List AggIssue) (m : String) : Nat :=
  match l.find? (fun e => e.message == m) with
  | some e => e.count
  | none => 0

/-- Length of the affected-URL list of the entry for message `m`. -/
def aggUrls (l : List AggIssue) (m : String) : Nat :=
  match l.find? (fun e => e.message == m) with
  | some e => e.pages.length
  | none => 0

theorem aggCount_cons (e : AggIssue) (rest : List AggIssue) (m : String) :
    aggCount (e :: rest) m =
      if (e.message == m) = true then e.count else aggCount rest m := by
  unfold aggCount
  rw [List.find?_cons]
  cases h : e.message == m <;> simp [h]

theorem aggUrls_cons (e : AggIssue) (rest : List AggIssue) (m : String) :
    aggUrls (e :: rest) m =
      if (e.message == m) = true then e.pages.length else aggUrls rest m := by
  unfold aggUrls
  rw [List.find?_cons]
  cases h : e.message == m <;> simp [h]

theorem addIssue_aggCount (acc : List AggIssue) (iss : Issue) (url : String)
    (m : String) :
    aggCount (addIssue acc iss url) m =
      aggCount acc m + (if (iss.message == m) = true then 1 else 0) := by
  induction acc with
  | nil =>
      unfold addIssue
      rw [aggCount_cons]
      by_cases h : iss.message = m <;> simp [aggCount, h]
  | cons e rest ih =>
      unfold addIssue
      by_cases h1 : e.message = iss.message
      · rw [if_pos (by simp [h1])]
        rw [aggCount_cons, aggCount_cons]
        by_cases h2 : e.message = m
        · have h3 : iss.message = m := h1.symm.trans h2
          simp [h2, h3]
        · have h3 : ¬(iss.message = m) := fun hc => h2 (h1.trans hc)
          simp [h2, h3]
      · rw [if_neg (by simp [h1])]
        rw [aggCount_cons, aggCount_cons]
        by_cases h2 : e.message = m
        · have h3 : ¬(iss.message = m) := fun hc => h1 (h2.trans hc.symm)
          simp [h2, h3]
        · simp [h2, ih]

theorem addIssue_aggUrls (acc : List AggIssue) (iss : Issue) (url : String)
    (m : String) :
    aggUrls (addIssue acc iss url) m =
      aggUrls acc m + (if (iss.message == m) = true then 1 else 0) := by
  induction acc with
  | nil =>
      unfold addIssue
      rw [aggUrls_cons]
      by_cases h : iss.message = m <;> simp [aggUrls, h]
  | cons e rest ih =>
      unfold addIssue
      by_cases h1 : e.message = iss.message
      · rw [if_pos (by simp [h1])]
        rw [aggUrls_cons, aggUrls_cons]
        by_cases h2 : e.message = m
        · have h3 : iss.message = m := h1.symm.trans h2
          simp [h2, h3]
        · have h3 : ¬(iss.message = m) := fun hc => h2 (h1.trans hc)
          simp [h2, h3]
      · rw [if_neg (by simp [h1])]
        rw [aggUrls_cons, aggUrls_cons]
        by_cases h2 : e.message = m
        · have h3 : ¬(iss.message = m) := fun hc => h1 (h2.trans hc.symm)
          simp [h2, h3]
        · simp [h2, ih]

theorem foldl_page_aggCount (issues : List Issue) (url : String)
    (acc : List AggIssue) (m : String) :
    aggCount (issues.foldl (fun a i => addIssue a i url) acc) m =
      aggCount acc m + issues.countP (fun i => i.message == m) := by
  induction issues generalizing acc with
  | nil => simp
  | cons i t ih =>
      rw [List.foldl_cons, ih, addIssue_aggCount, List.countP_cons]
      by_cases h : (i.message == m) = true <;> simp [h] <;> omega

theorem foldl_page_aggUrls (issues : List Issue) (url : String)
    (acc : List AggIssue) (m : String) :
    aggUrls (issues.foldl (fun a i => addIssue a i url) acc) m =
      aggUrls acc m + issues.countP (fun i => i.message == m) := by
  induction issues generalizing acc with
  | nil => simp
  | cons i t ih =>
      rw [List.foldl_cons, ih, addIssue_aggUrls, List.countP_cons]
      by_cases h : (i.message == m) = true <;> simp [h] <;> omega

theorem foldIssues_aggCount (pages : List PageAnalysis) (m : String) :
    aggCount (foldIssues pages) m =
      (pages.map (fun p => p.issues.countP (fun i => i.message == m))).sum := by
  suffices haux : ∀ acc, aggCount (pages.foldl
      (fun acc page => page.issues.foldl
        (fun a i => addIssue a i page.url) acc) acc) m =
      aggCount acc m +
        (pages.map (fun p => p.issues.countP (fun i => i.message == m))).sum by
    have := haux []
    simpa [foldIssues, aggCount] using this
  induction pages with
  | nil => intro acc; simp
  | cons p t ih =>
      intro acc
      rw [List.foldl_cons, ih, foldl_page_aggCount, List.map_cons,
        List.sum_cons]
      omega

theorem foldIssues_aggUrls (pages : List PageAnalysis) (m : String) :
    aggUrls (foldIssues pages) m =
      (pages.map (fun p => p.issues.countP (fun i => i.message == m))).sum := by
  suffices haux : ∀ acc, aggUrls (pages.foldl
      (fun acc page => page.issues.foldl
        (fun a i => addIssue a i page.url) acc) acc) m =
      aggUrls acc m +
        (pages.map (fun p => p.issues.countP (fun i => i.message == m))).sum by
    have := haux []
    simpa [foldIssues, aggUrls] using this
  induction pages with
  | nil => intro acc; simp
  | cons p t ih =>
      intro acc
      rw [List.foldl_cons, ih, foldl_page_aggUrls, List.map_cons,
        List.sum_cons]
      omega

theorem countP_msg_of_nodup (issues : List Issue) (m : String)
    (h : (issues.map (fun i => i.message)).Nodup) :
    issues.countP (fun i => i.message == m) =
      if issues.any (fun i => i.message == m) then 1 else 0 := by
  induction issues with
  | nil => simp
  | cons i t ih =>
      rw [List.map_cons, List.nodup_cons] at h
      obtain ⟨hnm, hnd⟩ := h
      by_cases hm : i.message = m
      · have ht : t.countP (fun i => i.message == m) = 0 := by
          rw [List.countP_eq_zero]
          intro i' hi' hbeq
          rw [beq_iff_eq] at hbeq
          have hmem : i'.message ∈ t.map (fun i => i.message) :=
            List.mem_map_of_mem _ hi'
          rw [hbeq, ← hm] at hmem
          exact hnm hmem
        simp [List.countP_cons, List.any_cons, hm, ht]
      · simp [List.countP_cons, List.any_cons, hm, ih hnd]

theorem sum_map_ite_countP (q : PageAnalysis → Bool)
    (pages : List PageAnalysis) :
    (pages.map (fun p => if q p then 1 else 0)).sum = pages.countP q := by
  induction pages with
  | nil => rfl
  | cons p t ih =>
      by_cases h : q p = true <;>
        simp [List.countP_cons, h, ih, Nat.add_comm]

theorem extractPageIssues_msgs_nodup (r : Results) :
    ((extractPageIssues r).map (fun i => i.message)).Nodup := by
  have halt : ∀ s : String, s.length < 29 →
      (toString r.images.withoutAlt ++ " afbeeldingen zonder alt-text") ≠
        s := by
    intro s hs heq
    have hlen := congrArg String.length heq
    rw [String.length_append] at hlen
    have h29 : (" afbeeldingen zonder alt-text" : String).length = 29 := by
      decide
    omega
  unfold extractPageIssues
  split_ifs <;>
    simp only [List.map_append, List.map_cons, List.map_nil,
      List.nil_append, List.append_nil, List.cons_append,
      List.nodup_cons, List.mem_cons, List.mem_singleton,
      List.not_mem_nil, List.nodup_nil, not_or, and_true, not_false_iff,
      List.mem_append] <;>
    repeat' apply And.intro
  all_goals first
    | trivial
    | decide
    | (intro heq; exact halt _ (by decide) heq.symm)
    | (intro heq; exact halt _ (by decide) heq)

/-- C3: folding per-page issue lists into the message-keyed table gives,
for each message, a count equal to the number of pages reporting it (their
issue lists have pairwise-distinct messages, which `extractPageIssues`
always guarantees — last conjunct), an affected-URL list of the same
length, and the counts are independent of the processing order. -/
theorem claim3_issue_fold :
    (∀ (pages : List PageAnalysis) (m : String),
      (∀ p ∈ pages, (p.issues.map (fun i => i.message)).Nodup) →
      aggCount (foldIssues pages) m =
        pages.countP (fun p => p.issues.any (fun i => i.message == m)) ∧
      aggUrls (foldIssues pages) m = aggCount (foldIssues pages) m) ∧
    (∀ (pages pages₂ : List PageAnalysis) (m : String),
      pages.Perm pages₂ →
      (∀ p ∈ pages, (p.issues.map (fun i => i.message)).Nodup) →
      aggCount (foldIssues pages₂) m = aggCount (foldIssues pages) m) ∧
    (∀ r : Results,
      ((extractPageIssues r).map (fun i => i.message)).Nodup) := by
  have hmain : ∀ (pages : List PageAnalysis) (m : String),
      (∀ p ∈ pages, (p.issues.map (fun i => i.message)).Nodup) →
      aggCount (foldIssues pages) m =
        pages.countP (fun p => p.issues.any (fun i => i.message == m)) := by
    intro pages m h
    rw [foldIssues_aggCount]
    rw [show (pages.map
        (fun p => p.issues.countP (fun i => i.message == m))) =
      pages.map (fun p =>
        if p.issues.any (fun i => i.message == m) then 1 else 0) from
      List.map_congr_left (fun p hp => countP_msg_of_nodup p.issues m (h p hp))]
    exact sum_map_ite_countP _ pages
  refine ⟨?_, ?_, extractPageIssues_msgs_nodup⟩
  · intro pages m h
    refine ⟨hmain pages m h, ?_⟩
    rw [foldIssues_aggUrls, foldIssues_aggCount]
  · intro pages pages₂ m hperm h
    have h₂ : ∀ p ∈ pages₂, (p.issues.map (fun i => i.message)).Nodup :=
      fun p hp => h p (hperm.mem_iff.mpr hp)
    rw [hmain pages m h, hmain pages₂ m h₂]
    exact hperm.symm.countP_eq _

/-- A page reporting the missing-meta-description issue. -/
def metaIssuePage (u : String) : PageAnalysis :=
  ⟨u, none, 85, [⟨"warning", "Meta description ontbreekt"⟩]⟩

def pagesEx3 : List PageAnalysis :=
  [metaIssuePage "https://a.com/", metaIssuePage "https://a.com/b",
   metaIssuePage "https://a.com/c"]

/-- Witness for `claim3_issue_fold`: three pages each reporting
"Meta description ontbreekt" yield `count = 3` and 3 affected URLs. -/
theorem claim3_witness :
    aggCount (foldIssues pagesEx3) "Meta description ontbreekt" = 3 ∧
    aggUrls (foldIssues pagesEx3) "Meta description ontbreekt" = 3 := by
  obtain ⟨hc, hu⟩ := claim3_issue_fold.1 pagesEx3
    "Meta description ontbreekt" (by decide)
  refine ⟨?_, ?_⟩
  · rw [hc]; decide
  · rw [hu, hc]; decide

end SEOMax
